/-
  Verification of the SerenityJS plugin-repository front end.

  This file embeds, in Lean, the data model and the operations of the
  repository's plugin pipeline:

  * the list view model (`filteredPlugins`, `sortedPlugins`, `sortedHome`)
    from `src/pages/plugins.tsx` and the later `src/pages/home.tsx` variant;
  * the plugin-list loaders and their in-memory cache
    (`fetchPluginsBackend`, `fetchPluginBackend` from `fetch-plugins.ts` of the
    backend-aggregate generation, and `fetchPluginsDirect` / `buildGo` for the
    GitHub-direct generation);
  * the detail-page data fetches of `src/pages/plugin-details.tsx`
    (latest release with its 404 fallback, README / gallery / contributors
    normalization, and the lazy per-tab fetch guards).

  Strings are embedded as Lean `String` / `List Char`; network interactions are
  embedded by passing the remote responses in explicitly as data (an "oracle"),
  so each loader becomes a pure function of its inputs and the responses it
  would receive.  JavaScript numbers holding integral counts and epoch
  timestamps are embedded as `Nat` / `Int`.
-/
import Mathlib

/-! ## Characters and strings

The TypeScript code lowercases with `String.prototype.toLowerCase`; on the
ASCII range (all that matters for the reasoning below) this is `Char.toLower`,
mapping code points 65–90 to 97–122 and leaving everything else unchanged. -/

/-- Lowercase a JavaScript string, character by character. -/
def lowerChars (s : String) : List Char :=
  s.data.map Char.toLower

/-- The whitespace class of the JavaScript regular expression `\s`
(restricted to its ASCII members, which are the ones the code can meet in a
query string). -/
def isWsChar (c : Char) : Bool :=
  c == ' ' || c == '\t' || c == '\n' || c == '\r' || c == '\x0b' || c == '\x0c'

/-- Accumulator-style worker for `splitWsWords`: `acc` holds the current word,
reversed. -/
def wordsAux : List Char → List Char → List (List Char)
  | [], acc => if acc.isEmpty then [] else [acc.reverse]
  | c :: cs, acc =>
    if isWsChar c then
      if acc.isEmpty then wordsAux cs [] else acc.reverse :: wordsAux cs []
    else wordsAux cs (c :: acc)

/-- The non-empty chunks of `q.split(/\s+/)`: maximal runs of non-whitespace
characters.  (`split(/\s+/)` can additionally produce empty-string chunks at
the ends; the view model removes those with `.filter(Boolean)`, so they are
dropped here once and for all.) -/
def splitWsWords (l : List Char) : List (List Char) :=
  wordsAux l []

/-- `t.replace(/^#/, "")`: strip one leading `'#'` if present. -/
def dropHash (l : List Char) : List Char :=
  match l with
  | [] => []
  | c :: rest => if c = '#' then rest else c :: rest

/-- `Array.prototype.join(" ")` on a list of strings. -/
def joinSpace : List (List Char) → List Char
  | [] => []
  | [x] => x
  | x :: y :: ys => x ++ ' ' :: joinSpace (y :: ys)

/-! ## The plugin record of the list page

`src/types/plugin.ts` (first generation): numeric GitHub repository id, name,
description, version, owner login, star count, release-asset download count,
keywords, and an optional logo URL. -/

structure Plugin where
  id : Nat
  name : String
  description : String
  version : String
  owner : String
  stars : Nat
  downloads : Nat
  keywords : List String
  logo : Option String
deriving DecidableEq

/-! ## List view model: filtering (`Plugins.filtered`, plugins.tsx 58–76)

```js
const terms = q.split(/\s+/).map(t => t.replace(/^#/, "").toLowerCase()).filter(Boolean);
if (terms.length === 0) return plugins;
return plugins.filter(p => {
  const haystack = [p.name, p.owner, p.description, ...p.keywords].join(" ").toLowerCase();
  return terms.every(t => haystack.includes(t));
});
```
`String.prototype.includes` is the contiguous-substring test, i.e. `<:+:` on
the character lists. -/

/-- The search terms derived from the query string. -/
def queryTerms (q : String) : List (List Char) :=
  ((splitWsWords q.data).map fun t => (dropHash t).map Char.toLower).filter
    fun t => !t.isEmpty

/-- The lowercased haystack of a plugin: name, owner, description and keywords
joined by single spaces. -/
def haystack (p : Plugin) : List Char :=
  (joinSpace ([p.name.data, p.owner.data, p.description.data] ++
    p.keywords.map String.data)).map Char.toLower

/-- `Plugins.filtered`: the filtered collection derived from the possibly
null plugin array and the query string. -/
def filteredPlugins (plugins : Option (List Plugin)) (q : String) : List Plugin :=
  match plugins with
  | none => []
  | some ps =>
    if q.isEmpty then ps
    else
      let terms := queryTerms q
      if terms.isEmpty then ps
      else ps.filter fun p => terms.all fun t => decide (t <:+: haystack p)

/-! ### Facts about lowercasing, splitting and joining -/

lemma toLower_space : Char.toLower ' ' = ' ' := rfl

lemma ofNat_add32_ne_space (n : Nat) (h1 : 65 ≤ n) (h2 : n ≤ 90) :
    Char.ofNat (n + 32) ≠ ' ' := by
  interval_cases n <;> decide

lemma toLower_ne_space {c : Char} (h : c ≠ ' ') : Char.toLower c ≠ ' ' := by
  have hdef : Char.toLower c =
      if c.toNat ≥ 65 ∧ c.toNat ≤ 90 then Char.ofNat (c.toNat + 32) else c := rfl
  rw [hdef]
  split
  case isTrue h' => exact ofNat_add32_ne_space c.toNat h'.1 h'.2
  case isFalse h' => exact h

lemma wordsAux_no_ws (l acc : List Char) (hacc : ∀ c ∈ acc, isWsChar c = false) :
    ∀ w ∈ wordsAux l acc, ∀ c ∈ w, isWsChar c = false := by
  induction l generalizing acc with
  | nil =>
    intro w hw c hc
    unfold wordsAux at hw
    split at hw
    · simp at hw
    · simp at hw
      subst hw
      exact hacc c (by simpa using hc)
  | cons d ds ih =>
    intro w hw c hc
    unfold wordsAux at hw
    split at hw
    case isTrue hd =>
      split at hw
      · exact ih [] (by simp) w hw c hc
      · rcases List.mem_cons.mp hw with h | h
        · subst h
          exact hacc c (by simpa using hc)
        · exact ih [] (by simp) w h c hc
    case isFalse hd =>
      refine ih (d :: acc) ?_ w hw c hc
      intro e he
      rcases List.mem_cons.mp he with h | h
      · subst h
        simpa using hd
      · exact hacc e h

lemma mem_dropHash {c : Char} {l : List Char} (h : c ∈ dropHash l) : c ∈ l := by
  unfold dropHash at h
  match l with
  | [] => simp at h
  | d :: rest =>
    simp only at h
    split at h
    · exact List.mem_cons_of_mem _ h
    · exact h

/-- Every search term is free of the `' '` separator character. -/
lemma queryTerms_no_space {q : String} {t : List Char} (ht : t ∈ queryTerms q) :
    ' ' ∉ t := by
  intro hsp
  unfold queryTerms at ht
  rcases List.mem_filter.mp ht with ⟨htm, _⟩
  rcases List.mem_map.mp htm with ⟨w, hw, rfl⟩
  rcases List.mem_map.mp hsp with ⟨d, hd, hlow⟩
  have hdw : d ∈ w := mem_dropHash hd
  have hne : isWsChar d = false :=
    wordsAux_no_ws q.data [] (by simp) w hw d hdw
  have hdne : d ≠ ' ' := by
    intro h
    subst h
    simp [isWsChar] at hne
  exact toLower_ne_space hdne hlow

/-- Every search term is non-empty. -/
lemma queryTerms_ne_nil {q : String} {t : List Char} (ht : t ∈ queryTerms q) :
    t ≠ [] := by
  rcases List.mem_filter.mp ht with ⟨-, h⟩
  simpa using h

lemma joinSpace_map_toLower (xs : List (List Char)) :
    (joinSpace xs).map Char.toLower = joinSpace (xs.map (List.map Char.toLower)) := by
  match xs with
  | [] => rfl
  | [x] => rfl
  | x :: y :: ys =>
    have ih := joinSpace_map_toLower (y :: ys)
    simp only [joinSpace, List.map_append, List.map_cons, toLower_space, ih]

/-- A space-free string that is a prefix of `a ++ ' ' :: b` is a prefix of
`a`. -/
lemma pref_of_space_free {t : List Char} (hs : ' ' ∉ t) :
    ∀ {a b : List Char}, t <+: a ++ ' ' :: b → t <+: a := by
  induction t with
  | nil => intro a b _; exact List.nil_prefix
  | cons c ts ih =>
    intro a b h
    match a with
    | [] =>
      exfalso
      obtain ⟨u, hu⟩ := h
      simp only [List.nil_append, List.cons_append, List.cons.injEq] at hu
      exact hs (by simp [hu.1])
    | d :: as =>
      obtain ⟨u, hu⟩ := h
      simp only [List.cons_append, List.cons.injEq] at hu
      obtain ⟨rfl, hu2⟩ := hu
      have hts : ' ' ∉ ts := fun h => hs (List.mem_cons_of_mem _ h)
      have := ih hts (a := as) (b := b) ⟨u, hu2⟩
      obtain ⟨v, hv⟩ := this
      exact ⟨v, by simp [← hv]⟩

/-- A space-free string occurs inside `a ++ ' ' :: b` exactly when it occurs
inside `a` or inside `b`: it cannot straddle the separator. -/
lemma substr_append_space {t : List Char} (hs : ' ' ∉ t) :
    ∀ {a b : List Char}, t <:+: a ++ ' ' :: b ↔ (t <:+: a ∨ t <:+: b) := by
  have fwd : ∀ (a : List Char) (s u t b : List Char), ' ' ∉ t →
      s ++ t ++ u = a ++ ' ' :: b → t <:+: a ∨ t <:+: b := by
    intro a
    induction a with
    | nil =>
      intro s u t b hst h
      match s with
      | [] =>
        match t with
        | [] => exact Or.inl List.nil_infix
        | c :: ts =>
          exfalso
          simp only [List.nil_append, List.cons_append, List.cons.injEq] at h
          exact hst (by simp [h.1])
      | c :: s' =>
        simp only [List.cons_append, List.nil_append, List.cons.injEq] at h
        exact Or.inr ⟨s', u, h.2⟩
    | cons d as ih =>
      intro s u t b hst h
      match s with
      | [] =>
        have hpre : t <+: (d :: as) ++ ' ' :: b := by
          exact ⟨u, by simpa using h⟩
        exact Or.inl (pref_of_space_free hst hpre).isInfix
      | c :: s' =>
        simp only [List.cons_append, List.cons.injEq] at h
        rcases ih s' u t b hst h.2 with h' | h'
        · obtain ⟨s₁, u₁, hh⟩ := h'
          exact Or.inl ⟨d :: s₁, u₁, by simp [← hh]⟩
        · exact Or.inr h'
  intro a b
  constructor
  · intro h
    obtain ⟨s, u, hsu⟩ := h
    exact fwd a s u t b hs hsu
  · rintro (h | h)
    · obtain ⟨s, u, hsu⟩ := h
      exact ⟨s, u ++ ' ' :: b, by simp [← hsu]⟩
    · obtain ⟨s, u, hsu⟩ := h
      exact ⟨a ++ ' ' :: s, u, by simp [← hsu]⟩

/-- A non-empty space-free string occurs in a space-join exactly when it
occurs in one of the joined pieces. -/
lemma substr_joinSpace {t : List Char} (hs : ' ' ∉ t) (ht : t ≠ []) :
    ∀ xs : List (List Char), t <:+: joinSpace xs ↔ ∃ x ∈ xs, t <:+: x := by
  intro xs
  match xs with
  | [] =>
    simp only [joinSpace, List.infix_nil]
    simp [ht]
  | [x] => simp [joinSpace]
  | x :: y :: ys =>
    have ih := substr_joinSpace hs ht (y :: ys)
    simp only [joinSpace]
    rw [substr_append_space hs, ih]
    simp

/-! ### Claim C1 -/

/-- C1: for every plugin collection and query string, the filtered result of
the list view model is exactly the subset of plugins for which every search
term (query split on whitespace, leading `'#'` stripped, lowercased) is a
substring of the lowercased space-join of the plugin's name, owner,
description and keywords; and — terms being whitespace-free — a term occurs in
that join exactly when it occurs in one of the four fields (AND across terms,
OR across fields per term). -/
theorem filtered_exact_subset (ps : List Plugin) (q : String) (p : Plugin) :
    (p ∈ filteredPlugins (some ps) q ↔
      p ∈ ps ∧ ∀ t ∈ queryTerms q, t <:+: haystack p) ∧
    (∀ t ∈ queryTerms q,
      (t <:+: haystack p ↔
        t <:+: lowerChars p.name ∨ t <:+: lowerChars p.owner ∨
        t <:+: lowerChars p.description ∨ ∃ k ∈ p.keywords, t <:+: lowerChars k)) := by
  constructor
  · have hred : filteredPlugins (some ps) q =
        if q.isEmpty then ps
        else if (queryTerms q).isEmpty then ps
        else ps.filter fun p => (queryTerms q).all fun t => decide (t <:+: haystack p) :=
      rfl
    rw [hred]
    by_cases hq : q.isEmpty
    · rw [if_pos hq]
      have hq' : q = "" := (String.isEmpty_iff q).mp hq
      subst hq'
      have hterms : queryTerms "" = [] := rfl
      simp [hterms]
    · rw [if_neg hq]
      by_cases hts : (queryTerms q).isEmpty
      · rw [if_pos hts]
        have h0 : queryTerms q = [] := List.isEmpty_iff.mp hts
        simp [h0]
      · rw [if_neg hts]
        simp only [List.mem_filter, List.all_eq_true, decide_eq_true_eq]
  · intro t ht
    have hsp := queryTerms_no_space ht
    have htn := queryTerms_ne_nil ht
    have hhay : haystack p = joinSpace ([lowerChars p.name, lowerChars p.owner,
        lowerChars p.description] ++ p.keywords.map lowerChars) := by
      unfold haystack lowerChars
      rw [joinSpace_map_toLower]
      simp [List.map_map, Function.comp_def]
    rw [hhay, substr_joinSpace hsp htn]
    constructor
    · rintro ⟨x, hx, hsub⟩
      rcases List.mem_append.mp hx with h3 | hmap
      · rcases List.mem_cons.mp h3 with rfl | h3
        · exact Or.inl hsub
        rcases List.mem_cons.mp h3 with rfl | h3
        · exact Or.inr (Or.inl hsub)
        rcases List.mem_cons.mp h3 with rfl | h3
        · exact Or.inr (Or.inr (Or.inl hsub))
        · exact absurd h3 (List.not_mem_nil x)
      · rcases List.mem_map.mp hmap with ⟨k, hk, rfl⟩
        exact Or.inr (Or.inr (Or.inr ⟨k, hk, hsub⟩))
    · rintro (h | h | h | ⟨k, hk, h⟩)
      · exact ⟨lowerChars p.name, List.mem_append.mpr (Or.inl (by simp)), h⟩
      · exact ⟨lowerChars p.owner, List.mem_append.mpr (Or.inl (by simp)), h⟩
      · exact ⟨lowerChars p.description, List.mem_append.mpr (Or.inl (by simp)), h⟩
      · exact ⟨lowerChars k,
          List.mem_append.mpr (Or.inr (List.mem_map.mpr ⟨k, hk, rfl⟩)), h⟩

/-- A concrete plugin record used to instantiate the view-model theorems. -/
def wPlugin : Plugin :=
  { id := 1, name := "WorldEdit", description := "Edit the world", version := "1.0.0",
    owner := "Steve", stars := 3, downloads := 7, keywords := ["tools", "builder"],
    logo := none }

/-- Witness for C1 at a concrete collection and query: the query
`"#builder edit"` matches `wPlugin` (one term via its keywords, one via its
name and description), so the plugin is kept. -/
theorem filtered_exact_subset_witness :
    wPlugin ∈ filteredPlugins (some [wPlugin]) "#builder edit" :=
  (filtered_exact_subset [wPlugin] "#builder edit" wPlugin).1.mpr
    ⟨List.mem_singleton.mpr rfl, by decide⟩

/-! ## List view model: sorting (`Plugins.sorted`, plugins.tsx 79–99)

The JS comparators return `b.key - a.key` and fall through to the next
comparison when the difference is zero; the final tie-break is
`a.name.localeCompare(b.name)`, embedded as the lexicographic three-way
comparison `nameCmp` (the spec fixes the name order to be lexicographic).
`Array.prototype.sort` with a consistent comparator `cmp` produces the stable
sort by the total preorder `cmp a b ≤ 0`; it is embedded as
`List.insertionSort` of that relation, which computes exactly that stable
sort. -/

/-- Three-way lexicographic comparison of two character lists
(`String.prototype.localeCompare` restricted to code-point order). -/
def nameCmp : List Char → List Char → Int
  | [], [] => 0
  | [], _ :: _ => -1
  | _ :: _, [] => 1
  | a :: as, b :: bs => if a < b then -1 else if b < a then 1 else nameCmp as bs

/-- One step of a JS comparator cascade: return `key b - key a` when nonzero,
otherwise fall through to the tie-breaker. -/
def subThen (key : α → Nat) (tie : α → α → Int) (a b : α) : Int :=
  if ((key b : Int) - key a) ≠ 0 then (key b : Int) - key a else tie a b

lemma nameCmp_neg : ∀ a b : List Char, nameCmp b a = - nameCmp a b
  | [], [] => rfl
  | [], _ :: _ => rfl
  | _ :: _, [] => rfl
  | a :: as, b :: bs => by
    simp only [nameCmp]
    rcases lt_trichotomy a b with h | rfl | h
    · rw [if_neg (asymm h), if_pos h, if_pos h]
      rfl
    · simp only [if_neg (lt_irrefl a)]
      exact nameCmp_neg as bs
    · rw [if_pos h, if_neg (asymm h), if_pos h]

lemma nameCmp_trans : ∀ a b c : List Char,
    nameCmp a b ≤ 0 → nameCmp b c ≤ 0 → nameCmp a c ≤ 0
  | [], b, c => by
    intro _ _
    cases c <;> simp [nameCmp]
  | a :: as, [], c => by
    intro h1 _
    simp [nameCmp] at h1
  | a :: as, b :: bs, [] => by
    intro _ h2
    simp [nameCmp] at h2
  | a :: as, b :: bs, c :: cs => by
    intro h1 h2
    simp only [nameCmp] at h1 h2 ⊢
    have H1 : a < b ∨ (a = b ∧ nameCmp as bs ≤ 0) := by
      by_cases hab : a < b
      · exact Or.inl hab
      · by_cases hba : b < a
        · rw [if_neg hab, if_pos hba] at h1
          omega
        · rw [if_neg hab, if_neg hba] at h1
          exact Or.inr ⟨le_antisymm (not_lt.mp hba) (not_lt.mp hab), h1⟩
    have H2 : b < c ∨ (b = c ∧ nameCmp bs cs ≤ 0) := by
      by_cases hbc : b < c
      · exact Or.inl hbc
      · by_cases hcb : c < b
        · rw [if_neg hbc, if_pos hcb] at h2
          omega
        · rw [if_neg hbc, if_neg hcb] at h2
          exact Or.inr ⟨le_antisymm (not_lt.mp hcb) (not_lt.mp hbc), h2⟩
    rcases H1 with h | ⟨rfl, h⟩
    · rcases H2 with h' | ⟨rfl, h'⟩
      · rw [if_pos (lt_trans h h')]
        omega
      · rw [if_pos h]
        omega
    · rcases H2 with h' | ⟨rfl, h'⟩
      · rw [if_pos h']
        omega
      · rw [if_neg (lt_irrefl a), if_neg (lt_irrefl a)]
        exact nameCmp_trans as bs cs h h'

lemma nameCmp_total (a b : List Char) : nameCmp a b ≤ 0 ∨ nameCmp b a ≤ 0 := by
  have := nameCmp_neg a b
  omega

lemma subThen_le_iff (key : α → Nat) (tie : α → α → Int) (a b : α) :
    subThen key tie a b ≤ 0 ↔ (key b < key a ∨ (key b = key a ∧ tie a b ≤ 0)) := by
  unfold subThen
  generalize tie a b = n
  split <;> omega

lemma subThen_total (key : α → Nat) (tie : α → α → Int)
    (htie : ∀ a b, tie a b ≤ 0 ∨ tie b a ≤ 0) (a b : α) :
    subThen key tie a b ≤ 0 ∨ subThen key tie b a ≤ 0 := by
  rw [subThen_le_iff, subThen_le_iff]
  rcases htie a b with h | h <;> omega

lemma subThen_trans (key : α → Nat) (tie : α → α → Int)
    (htr : ∀ a b c, tie a b ≤ 0 → tie b c ≤ 0 → tie a c ≤ 0) (a b c : α)
    (h1 : subThen key tie a b ≤ 0) (h2 : subThen key tie b c ≤ 0) :
    subThen key tie a c ≤ 0 := by
  rw [subThen_le_iff] at h1 h2 ⊢
  rcases h1 with h | ⟨e1, h1'⟩
  · rcases h2 with h' | ⟨e2, h2'⟩
    · exact Or.inl (by omega)
    · exact Or.inl (by omega)
  · rcases h2 with h' | ⟨e2, h2'⟩
    · exact Or.inl (by omega)
    · exact Or.inr ⟨by omega, htr a b c h1' h2'⟩

/-- The `sort === "stars"` comparator of plugins.tsx: stars descending, ties
by downloads descending, then name ascending. -/
def starsCmp : Plugin → Plugin → Int :=
  subThen (·.stars) (subThen (·.downloads) fun a b => nameCmp a.name.data b.name.data)

/-- The `sort === "downloads"` comparator of plugins.tsx: downloads
descending, ties by stars descending, then name ascending. -/
def downloadsCmp : Plugin → Plugin → Int :=
  subThen (·.downloads) (subThen (·.stars) fun a b => nameCmp a.name.data b.name.data)

/-- `cmp a b ≤ 0`: the comparator keeps `a` no later than `b`. -/
def starsLe (a b : Plugin) : Prop := starsCmp a b ≤ 0

def downloadsLe (a b : Plugin) : Prop := downloadsCmp a b ≤ 0

instance : DecidableRel starsLe := fun _ _ => Int.decLe _ _

instance : DecidableRel downloadsLe := fun _ _ => Int.decLe _ _

instance : IsTotal Plugin starsLe :=
  ⟨subThen_total _ _ (subThen_total _ _ fun a b => nameCmp_total a.name.data b.name.data)⟩

instance : IsTrans Plugin starsLe :=
  ⟨subThen_trans _ _ (subThen_trans _ _ fun a b c => nameCmp_trans a.name.data b.name.data c.name.data)⟩

instance : IsTotal Plugin downloadsLe :=
  ⟨subThen_total _ _ (subThen_total _ _ fun a b => nameCmp_total a.name.data b.name.data)⟩

instance : IsTrans Plugin downloadsLe :=
  ⟨subThen_trans _ _ (subThen_trans _ _ fun a b c => nameCmp_trans a.name.data b.name.data c.name.data)⟩

/-- `Plugins.sorted` of plugins.tsx: a stable sort of the filtered list by the
comparator selected by the sort key (anything other than `"downloads"` takes
the stars branch). -/
def sortedPlugins (l : List Plugin) (sortKey : String) : List Plugin :=
  if sortKey = "downloads" then List.insertionSort downloadsLe l
  else List.insertionSort starsLe l

/-! ## The home.tsx (backend-generation) variant

Its `Plugin` record (`src/types/plugin.ts`, second generation) has a
structured owner and the two release dates; the dates reach the comparator
through `new Date(s).getTime()`, embedded here as epoch-millisecond `Nat`
fields. -/

structure PluginContributor where
  username : String
  profile_url : String
  avatar_url : String
  contributions : Nat
deriving DecidableEq

structure PluginH where
  id : Nat
  name : String
  description : String
  version : String
  owner : PluginContributor
  stars : Nat
  downloads : Nat
  keywords : List String
  logo : Option String
  banner : Option String
  published : Nat
  updated : Nat
deriving DecidableEq

/-- The shared fallback of the home.tsx comparator: update date descending,
then stars descending, then name ascending. -/
def homeFallback : PluginH → PluginH → Int :=
  subThen (·.updated) (subThen (·.stars) fun a b => nameCmp a.name.data b.name.data)

/-- The home.tsx comparator (home.tsx 157–192): `switch (sort)` with cases
`"downloads"`, `"stars"`, `"published"`, and `"updated"`/default; the
`"published"` case returns the published-date difference directly, all other
cases fall through to `homeFallback`.  (The `"updated"` case's own
date comparison coincides with the first stage of the fallback.) -/
def homeCmp (sortKey : String) (a b : PluginH) : Int :=
  if sortKey = "downloads" then subThen (·.downloads) homeFallback a b
  else if sortKey = "stars" then subThen (·.stars) homeFallback a b
  else if sortKey = "published" then ((b.published : Int) - a.published)
  else homeFallback a b

def homeLe (sortKey : String) (a b : PluginH) : Prop := homeCmp sortKey a b ≤ 0

instance (k : String) : DecidableRel (homeLe k) := fun _ _ => Int.decLe _ _

lemma homeFallback_total (a b : PluginH) : homeFallback a b ≤ 0 ∨ homeFallback b a ≤ 0 := by
  unfold homeFallback
  exact subThen_total _ _ (subThen_total _ _ fun a b =>
    nameCmp_total a.name.data b.name.data) a b

lemma homeFallback_trans (a b c : PluginH) :
    homeFallback a b ≤ 0 → homeFallback b c ≤ 0 → homeFallback a c ≤ 0 := by
  unfold homeFallback
  exact subThen_trans _ _ (subThen_trans _ _ fun a b c =>
    nameCmp_trans a.name.data b.name.data c.name.data) a b c

instance (k : String) : IsTotal PluginH (homeLe k) := by
  constructor
  intro a b
  unfold homeLe homeCmp
  split_ifs
  · exact subThen_total _ _ homeFallback_total a b
  · exact subThen_total _ _ homeFallback_total a b
  · omega
  · exact homeFallback_total a b

instance (k : String) : IsTrans PluginH (homeLe k) := by
  constructor
  intro a b c
  unfold homeLe homeCmp
  split_ifs
  · exact subThen_trans _ _ homeFallback_trans a b c
  · exact subThen_trans _ _ homeFallback_trans a b c
  · omega
  · exact homeFallback_trans a b c

/-- `Plugins.sorted` of home.tsx: stable sort by the selected comparator. -/
def sortedHome (l : List PluginH) (sortKey : String) : List PluginH :=
  List.insertionSort (homeLe sortKey) l

/-! ### Claim C2 -/

/-- Plugin "A" of the spec's concrete sorting example (stars 100, downloads 1). -/
def pluginA : Plugin :=
  { id := 1, name := "A", description := "", version := "", owner := "",
    stars := 100, downloads := 1, keywords := [], logo := none }

/-- Plugin "B" of the spec's concrete sorting example (stars 50, downloads 200). -/
def pluginB : Plugin :=
  { id := 2, name := "B", description := "", version := "", owner := "",
    stars := 50, downloads := 200, keywords := [], logo := none }

/-- Modelled from the claim (spec side, for comparison with the code): the
tie-break cascade the claim asserts for the date keys — key date descending,
then update recency, then star count, then name ascending.  Instantiated at
the published date it is the order the claim requires of
`sortedHome · "published"`. -/
def claimedPublishedLe (a b : PluginH) : Prop :=
  b.published < a.published ∨ (b.published = a.published ∧
    (b.updated < a.updated ∨ (b.updated = a.updated ∧
      (b.stars < a.stars ∨ (b.stars = a.stars ∧ nameCmp a.name.data b.name.data ≤ 0)))))

instance : DecidableRel claimedPublishedLe := fun a b => by
  unfold claimedPublishedLe
  infer_instance

def hOwner : PluginContributor :=
  { username := "o", profile_url := "", avatar_url := "", contributions := 1 }

/-- Two home-variant plugins with the same published date; the second is more
recently updated, has more stars, and an earlier name. -/
def hP1 : PluginH :=
  { id := 1, name := "b", description := "", version := "", owner := hOwner,
    stars := 1, downloads := 0, keywords := [], logo := none, banner := none,
    published := 5, updated := 10 }

def hP2 : PluginH :=
  { id := 2, name := "a", description := "", version := "", owner := hOwner,
    stars := 9, downloads := 0, keywords := [], logo := none, banner := none,
    published := 5, updated := 20 }

/-- Counterexample to C2 as stated: under the `"published"` sort key the
comparator returns the published-date difference directly, with no fallback,
so the equal-published pair `[hP1, hP2]` keeps its input order even though
every stage of the claimed cascade (update recency, stars, name) orders `hP2`
strictly before `hP1`. -/
theorem sorted_published_no_fallback :
    sortedHome [hP1, hP2] "published" = [hP1, hP2] ∧
    ¬ (sortedHome [hP1, hP2] "published").Pairwise claimedPublishedLe := by
  constructor
  · decide
  · decide

/-- C2 (amended): the derived display order follows the tie-break cascades of
the code — `"stars"`: stars descending, then downloads descending, then name
ascending; `"downloads"`: downloads descending, then stars descending, then
name ascending; the date-sorting variant's `"updated"` key: update date
descending, then stars descending, then name ascending; its `"published"` key
orders by published date descending only, with no further cascade.  The
concrete example holds: for A (stars 100, downloads 1) and B (stars 50,
downloads 200), key `"stars"` yields [A, B] and key `"downloads"` yields
[B, A]. -/
theorem sorted_tiebreak_cascade :
    (∀ l : List Plugin,
      (sortedPlugins l "stars").Perm l ∧ (sortedPlugins l "stars").Pairwise starsLe) ∧
    (∀ a b : Plugin, starsLe a b ↔
      (b.stars < a.stars ∨ (b.stars = a.stars ∧
        (b.downloads < a.downloads ∨ (b.downloads = a.downloads ∧
          nameCmp a.name.data b.name.data ≤ 0))))) ∧
    (∀ l : List Plugin,
      (sortedPlugins l "downloads").Perm l ∧
      (sortedPlugins l "downloads").Pairwise downloadsLe) ∧
    (∀ a b : Plugin, downloadsLe a b ↔
      (b.downloads < a.downloads ∨ (b.downloads = a.downloads ∧
        (b.stars < a.stars ∨ (b.stars = a.stars ∧
          nameCmp a.name.data b.name.data ≤ 0))))) ∧
    (∀ l : List PluginH,
      (sortedHome l "updated").Perm l ∧
      (sortedHome l "updated").Pairwise (homeLe "updated")) ∧
    (∀ a b : PluginH, homeLe "updated" a b ↔
      (b.updated < a.updated ∨ (b.updated = a.updated ∧
        (b.stars < a.stars ∨ (b.stars = a.stars ∧
          nameCmp a.name.data b.name.data ≤ 0))))) ∧
    (∀ l : List PluginH,
      (sortedHome l "published").Perm l ∧
      (sortedHome l "published").Pairwise (homeLe "published")) ∧
    (∀ a b : PluginH, homeLe "published" a b ↔ b.published ≤ a.published) ∧
    (sortedPlugins [pluginA, pluginB] "stars" = [pluginA, pluginB] ∧
     sortedPlugins [pluginB, pluginA] "stars" = [pluginA, pluginB] ∧
     sortedPlugins [pluginA, pluginB] "downloads" = [pluginB, pluginA] ∧
     sortedPlugins [pluginB, pluginA] "downloads" = [pluginB, pluginA]) := by
  have hstars : ∀ l : List Plugin, sortedPlugins l "stars" = List.insertionSort starsLe l := by
    intro l
    simp [sortedPlugins]
  have hdl : ∀ l : List Plugin,
      sortedPlugins l "downloads" = List.insertionSort downloadsLe l := by
    intro l
    simp [sortedPlugins]
  refine ⟨?_, ?_, ?_, ?_, ?_, ?_, ?_, ?_, ?_⟩
  · intro l
    rw [hstars]
    exact ⟨List.perm_insertionSort _ _, List.sorted_insertionSort _ _⟩
  · intro a b
    unfold starsLe starsCmp
    rw [subThen_le_iff, subThen_le_iff]
  · intro l
    rw [hdl]
    exact ⟨List.perm_insertionSort _ _, List.sorted_insertionSort _ _⟩
  · intro a b
    unfold downloadsLe downloadsCmp
    rw [subThen_le_iff, subThen_le_iff]
  · intro l
    exact ⟨List.perm_insertionSort _ _, List.sorted_insertionSort _ _⟩
  · intro a b
    have hred : homeCmp "updated" a b = homeFallback a b := by
      simp [homeCmp]
    unfold homeLe
    rw [hred]
    unfold homeFallback
    rw [subThen_le_iff, subThen_le_iff]
  · intro l
    exact ⟨List.perm_insertionSort _ _, List.sorted_insertionSort _ _⟩
  · intro a b
    have hred : homeCmp "published" a b = ((b.published : Int) - a.published) := by
      simp [homeCmp]
    unfold homeLe
    rw [hred]
    omega
  · refine ⟨by decide, by decide, by decide, by decide⟩

/-! ## Plugin list loader and cache — backend-aggregate generation

`fetch-plugins.ts` of the backend generation keeps a module-level `CACHE`
array and a `lastFetch` timestamp; `CACHE_DURATION` is five minutes.  The
network is passed in as the response the single `fetch` would produce
(`none` = non-success status or thrown transport error, both of which the
code maps to a `null` result). -/

/-- The module state of `fetch-plugins.ts`: the `CACHE` array and the
`lastFetch` timestamp (epoch milliseconds). -/
structure CacheState where
  cache : List Plugin
  lastFetch : Nat
deriving DecidableEq

/-- `CACHE_DURATION = 5 * 60 * 1000` milliseconds. -/
def CACHE_DURATION : Nat := 5 * 60 * 1000

/-- `fetchPlugins()` of the backend generation, as a function of the current
state, the clock, and the response of the collection endpoint.  Returns the
nullable collection, the new state, and whether a network call was issued.

```js
if (now - lastFetch < CACHE_DURATION && CACHE.length > 0) return CACHE;
const response = await fetch(PLUGINS_ENDPOINT);
if (!response.ok) return null;
const plugins = await response.json();
lastFetch = now; CACHE.length = 0; CACHE.push(...plugins);
return plugins;
``` -/
def fetchPluginsBackend (st : CacheState) (now : Nat) (resp : Option (List Plugin)) :
    Option (List Plugin) × CacheState × Bool :=
  if (now : Int) - st.lastFetch < CACHE_DURATION ∧ st.cache ≠ [] then
    (some st.cache, st, false)
  else
    match resp with
    | none => (none, st, true)
    | some plugins => (some plugins, ⟨plugins, now⟩, true)

/-- `fetchPlugin(id)` of the backend generation, as a function of the state,
the clock, the requested id, and the response of the per-id endpoint.

```js
if (now - lastFetch < CACHE_DURATION && CACHE.length > 0)
  if (CACHE.some(x => x.id === id)) return CACHE.find(x => x.id === id)!;
const response = await fetch(`${DETAILS_ENDPOINT}/${id}`);
if (!response.ok) return null;
const plugin = await response.json();
const index = CACHE.indexOf(plugin);
if (index) CACHE.slice(index, 1);
CACHE.push(plugin);
return plugin;
```

`CACHE.indexOf(plugin)` compares by object reference and `plugin` is a
freshly parsed object, so `index` is always `-1`; `if (index)` is then
taken (`-1` is truthy), but `Array.prototype.slice` returns a copy without
mutating, so nothing is removed and the plugin is appended unconditionally.
The net cache update is therefore `CACHE.push(plugin)`. -/
def fetchPluginBackend (st : CacheState) (now : Nat) (id : Nat) (resp : Option Plugin) :
    Option Plugin × CacheState :=
  if (now : Int) - st.lastFetch < CACHE_DURATION ∧ st.cache ≠ [] ∧
      st.cache.any (fun x => x.id = id) then
    (st.cache.find? (fun x => x.id = id), st)
  else
    match resp with
    | none => (none, st)
    | some p => (some p, ⟨st.cache ++ [p], st.lastFetch⟩)

/-! ### Claim C3 -/

/-- Counterexample to C3 as stated: a successful fetch that cached an empty
collection starts a staleness window, yet a second invocation 1 second later
— well inside the window — issues a new network call, because the cache-hit
guard also requires `CACHE.length > 0`. -/
theorem staleness_empty_cache_refetch :
    (fetchPluginsBackend ⟨[], 0⟩ 0 (some [])).2.1 = ⟨[], 0⟩ ∧
    ((1000 : Int) - 0 < CACHE_DURATION) ∧
    (fetchPluginsBackend ⟨[], 0⟩ 1000 (some [])).2.2 = true := by
  refine ⟨by decide, by decide, by decide⟩

/-- C3 (amended): a list-loader invocation within the 5-minute window after a
previous fetch that cached a NON-EMPTY collection issues no network call and
returns the cached collection unchanged (same elements, same order, state
untouched); whenever that guard fails — window elapsed or cache empty — the
call bypasses the cache and issues a network fetch. -/
theorem staleness_window_no_refetch (st : CacheState) (now : Nat)
    (resp : Option (List Plugin)) :
    ((now : Int) - st.lastFetch < CACHE_DURATION → st.cache ≠ [] →
      fetchPluginsBackend st now resp = (some st.cache, st, false)) ∧
    (¬ ((now : Int) - st.lastFetch < CACHE_DURATION ∧ st.cache ≠ []) →
      (fetchPluginsBackend st now resp).2.2 = true) := by
  constructor
  · intro h1 h2
    unfold fetchPluginsBackend
    rw [if_pos ⟨h1, h2⟩]
  · intro h
    unfold fetchPluginsBackend
    rw [if_neg h]
    cases resp <;> rfl

/-- Witness for C3 at concrete inputs: one minute after a fetch cached a
one-element collection, the loader returns that collection unchanged without
a network call; at six minutes the guard fails and a call is issued. -/
theorem staleness_window_no_refetch_witness :
    fetchPluginsBackend ⟨[wPlugin], 0⟩ 60000 none = (some [wPlugin], ⟨[wPlugin], 0⟩, false) ∧
    (fetchPluginsBackend ⟨[wPlugin], 0⟩ 360000 none).2.2 = true :=
  ⟨(staleness_window_no_refetch ⟨[wPlugin], 0⟩ 60000 none).1 (by decide) (by decide),
   (staleness_window_no_refetch ⟨[wPlugin], 0⟩ 360000 none).2 (by decide)⟩

/-! ### Claim C4 -/

/-- C4 is a bug in the code: after the staleness window expires, a per-id
detail fetch for an id already in the cache appends a second entry with the
same id (the `indexOf`/`slice` removal is a no-op), violating the id
uniqueness invariant.  Concretely: a list fetch at t=0 caches the plugin with
id 1; a detail fetch of id 1 at t=400000 (window expired) re-fetches it and
appends, leaving two cache entries with id 1. -/
theorem fetchPlugin_duplicate_id :
    ((((fetchPluginBackend
        (fetchPluginsBackend ⟨[], 0⟩ 0 (some [wPlugin])).2.1
        400000 1 (some wPlugin)).2.cache).filter (fun x => x.id = 1)).length = 2) ∧
    ¬ ((fetchPluginBackend
        (fetchPluginsBackend ⟨[], 0⟩ 0 (some [wPlugin])).2.1
        400000 1 (some wPlugin)).2.cache).Pairwise (fun a b => a.id ≠ b.id) := by
  refine ⟨by decide, by decide⟩

/-! ## Plugin list loader — GitHub-direct generation (`fetch-plugins.ts` with
the topic search)

The loader issues a topic search, then for candidate indices
`i = 0 .. total_count - 1` reads `result.items[i]` and performs a
three-request fan-out (package manifest, release list, logo HEAD probe).
The network is embedded as an oracle keyed by the candidate index `i`
(each candidate has its own URLs, so one response function per resource
suffices); `none` stands for a non-success status. -/

/-- One entry of the search response's `items` array (the fields the loader
reads). -/
structure RepoItem where
  id : Nat
  name : String
  full_name : String
  description : String
  owner_login : String
  stargazers_count : Nat
  default_branch : String
deriving DecidableEq

/-- The parsed `package.json` of a candidate: `{ version?, logo?, keywords? }`.
`keywords` is `none` when absent or not an array; its non-string entries are
dropped by the loader's `typeof` filter, so the present case is already a
string list. -/
structure PkgManifest where
  version : Option String
  logo : Option String
  keywords : Option (List String)
deriving DecidableEq

/-- A release asset as read by the loader: only `download_count`. -/
structure RelAsset where
  download_count : Nat
deriving DecidableEq

/-- A release as read by the list loader: only its `assets`. -/
structure DirectRelease where
  assets : List RelAsset
deriving DecidableEq

/-- The GitHub search response: `total_count`, `incomplete_results`, `items`
(a single page capped at `per_page=100`). -/
structure SearchResponse where
  total_count : Nat
  incomplete_results : Bool
  items : List RepoItem

/-- The network oracle of the direct loader.  `search` is the primary
collection call; `pkg i`, `releases i` and `logoOk i` are the manifest fetch,
the release-list fetch and the logo HEAD probe for candidate index `i`. -/
structure DirectNet where
  search : Option SearchResponse
  pkg : Nat → Option PkgManifest
  releases : Nat → Option (List DirectRelease)
  logoOk : Nat → Bool

/-- The placeholder avatar used when the conventional logo is absent. -/
def placeholderLogo : String :=
  "https://avatars.githubusercontent.com/u/92610726?s=88&v=4"

/-- The conventional logo path probed for each candidate. -/
def conventionalLogoUrl (repo : RepoItem) : String :=
  "https://raw.githubusercontent.com/" ++ repo.full_name ++ "/" ++
    repo.default_branch ++ "/public/logo.png"

/-- The `Plugin` object the loop constructs for a kept candidate:
`downloads` sums the asset download counts of the first release. -/
def mkDirectPlugin (repo : RepoItem) (pkg : PkgManifest) (latest : DirectRelease)
    (logo : String) : Plugin :=
  { id := repo.id
    name := repo.name
    description := repo.description
    version := pkg.version.getD ""
    owner := repo.owner_login
    stars := repo.stargazers_count
    downloads := (latest.assets.map (·.download_count)).sum
    keywords := pkg.keywords.getD []
    logo := some logo }

/-- The outcome of one loop iteration for candidate `i`, assuming `items[i]`
exists: `none` when the candidate is skipped (failed manifest, failed or
empty release list), `some` the constructed plugin otherwise. -/
def candidateResult (net : DirectNet) (items : List RepoItem) (i : Nat) : Option Plugin :=
  match items[i]? with
  | none => none
  | some repo =>
    match net.pkg i with
    | none => none
    | some pkg =>
      match net.releases i with
      | none => none
      | some [] => none
      | some (latest :: _) =>
        some (mkDirectPlugin repo pkg latest
          (if net.logoOk i then conventionalLogoUrl repo else placeholderLogo))

/-- The candidate loop `for (let i = 0; i < result.total_count; i++)`,
structurally recursive on the number of remaining iterations (`fuel`
iterations starting at index `i`).  Reading `result.items[i]` past the end of
`items` yields `undefined` and the subsequent `repo.full_name` access throws
a `TypeError`, embedded as `Except.error ()`. -/
def buildGo (net : DirectNet) (items : List RepoItem) (i : Nat) :
    Nat → Except Unit (List Plugin)
  | 0 => .ok []
  | fuel + 1 =>
    match items[i]? with
    | none => .error ()
    | some repo =>
      match net.pkg i with
      | none => buildGo net items (i + 1) fuel
      | some pkg =>
        match net.releases i with
        | none => buildGo net items (i + 1) fuel
        | some [] => buildGo net items (i + 1) fuel
        | some (latest :: _) =>
          (buildGo net items (i + 1) fuel).map
            (mkDirectPlugin repo pkg latest
              (if net.logoOk i then conventionalLogoUrl repo else placeholderLogo) :: ·)

/-- The cache merge at the end of a successful direct fetch: push each new
plugin only if no cached entry has its id (the cache grows as it merges). -/
def mergeById (cache : List Plugin) : List Plugin → List Plugin
  | [] => cache
  | p :: ps =>
    if cache.any (fun q => q.id = p.id) then mergeById cache ps
    else mergeById (cache ++ [p]) ps

/-- `fetchPlugins()` of the direct generation: staleness guard (note
`lastFetch` is updated before the fetch), primary search call, candidate
loop, cache merge.  A non-success primary response returns `null`; a crash of
the loop propagates as a rejected promise (`Except.error`). -/
def fetchPluginsDirect (st : CacheState) (now : Nat) (net : DirectNet) :
    Except Unit (Option (List Plugin) × CacheState) :=
  if (now : Int) - st.lastFetch < CACHE_DURATION ∧ st.cache ≠ [] then
    .ok (some st.cache, st)
  else
    match net.search with
    | none => .ok (none, ⟨st.cache, now⟩)
    | some resp =>
      match buildGo net resp.items 0 resp.total_count with
      | .error e => .error e
      | .ok plugins => .ok (some plugins, ⟨mergeById st.cache plugins, now⟩)

/-! ### The loop as an index-wise filterMap -/

lemma buildGo_ok (net : DirectNet) (items : List RepoItem) :
    ∀ (fuel i : Nat), i + fuel ≤ items.length →
      buildGo net items i fuel =
        .ok ((List.range' i fuel).filterMap (candidateResult net items)) := by
  intro fuel
  induction fuel with
  | zero => intro i _; rfl
  | succ n ih =>
    intro i hle
    have hi : i < items.length := by omega
    obtain ⟨repo, hrepo⟩ : ∃ r, items[i]? = some r :=
      ⟨items[i], List.getElem?_eq_getElem hi⟩
    have hrec := ih (i + 1) (by omega)
    have hrange : List.range' i (n + 1) = i :: List.range' (i + 1) n :=
      List.range'_succ i n 1
    unfold buildGo
    rw [hrepo, hrange]
    match hpkg : net.pkg i with
    | none =>
      have hcand : candidateResult net items i = none := by
        unfold candidateResult
        rw [hrepo, hpkg]
      simp only [List.filterMap_cons, hcand]
      exact hrec
    | some pkg =>
      match hrel : net.releases i with
      | none =>
        have hcand : candidateResult net items i = none := by
          unfold candidateResult
          rw [hrepo, hpkg, hrel]
        simp only [List.filterMap_cons, hcand]
        exact hrec
      | some [] =>
        have hcand : candidateResult net items i = none := by
          unfold candidateResult
          rw [hrepo, hpkg, hrel]
        simp only [List.filterMap_cons, hcand]
        exact hrec
      | some (latest :: rest) =>
        have hcand : candidateResult net items i =
            some (mkDirectPlugin repo pkg latest
              (if net.logoOk i then conventionalLogoUrl repo else placeholderLogo)) := by
          unfold candidateResult
          rw [hrepo, hpkg, hrel]
        simp only [List.filterMap_cons, hcand, hrec, Except.map]

lemma buildGo_oob (net : DirectNet) (items : List RepoItem) :
    ∀ (fuel i : Nat), i ≤ items.length → items.length < i + fuel →
      buildGo net items i fuel = .error () := by
  intro fuel
  induction fuel with
  | zero => intro i h1 h2; omega
  | succ n ih =>
    intro i h1 h2
    by_cases hi : i < items.length
    · obtain ⟨repo, hrepo⟩ : ∃ r, items[i]? = some r :=
        ⟨items[i], List.getElem?_eq_getElem hi⟩
      have hrec := ih (i + 1) (by omega) (by omega)
      unfold buildGo
      rw [hrepo]
      match hpkg : net.pkg i with
      | none => exact hrec
      | some pkg =>
        match hrel : net.releases i with
        | none => exact hrec
        | some [] => exact hrec
        | some (latest :: rest) => rw [hrec]; rfl
    · have : items[i]? = none := List.getElem?_eq_none (by omega)
      unfold buildGo
      rw [this]

lemma candidateResult_skip (net : DirectNet) (items : List RepoItem) (i : Nat)
    (hfail : net.pkg i = none ∨ net.releases i = none ∨ net.releases i = some []) :
    candidateResult net items i = none := by
  unfold candidateResult
  cases hrepo : items[i]? with
  | none => rfl
  | some repo =>
    rcases hfail with h | h | h
    · rw [h]
    · cases hpkg : net.pkg i with
      | none => rfl
      | some pkg => rw [h]
    · cases hpkg : net.pkg i with
      | none => rfl
      | some pkg => rw [h]

/-! ### Claim C10 -/

/-- C10: the candidate loop runs indices `0 .. total_count - 1` over the
`items` array; when `total_count` does not exceed `items.length` every access
is in bounds and the loop completes normally, and this precondition is
necessary — as soon as `total_count` exceeds the number of returned items the
loop dereferences an absent entry and the loader crashes. -/
theorem candidate_loop_bounds :
    (∀ (net : DirectNet) (items : List RepoItem) (count : Nat),
      count ≤ items.length → ∃ l, buildGo net items 0 count = .ok l) ∧
    (∀ (net : DirectNet) (items : List RepoItem) (count : Nat),
      items.length < count → buildGo net items 0 count = .error ()) := by
  constructor
  · intro net items count h
    exact ⟨_, buildGo_ok net items count 0 (by omega)⟩
  · intro net items count h
    exact buildGo_oob net items count 0 (by omega) (by omega)

/-- A concrete candidate repository, manifest, release and oracle for the
loader witnesses. -/
def wRepo : RepoItem :=
  { id := 7, name := "router", full_name := "octo/router", description := "routes",
    owner_login := "octo", stargazers_count := 2, default_branch := "main" }

def wPkg : PkgManifest :=
  { version := some "1.2.3", logo := none, keywords := some ["routing"] }

def wRel : DirectRelease := { assets := [{ download_count := 4 }, { download_count := 6 }] }

def wNet : DirectNet :=
  { search := some { total_count := 1, incomplete_results := false, items := [wRepo] }
    pkg := fun _ => some wPkg
    releases := fun _ => some [wRel]
    logoOk := fun _ => true }

/-- Witness for C10: with one item, `total_count = 1` completes normally and
`total_count = 2` crashes on the absent second entry. -/
theorem candidate_loop_bounds_witness :
    (∃ l, buildGo wNet [wRepo] 0 1 = .ok l) ∧
    buildGo wNet [wRepo] 0 2 = .error () :=
  ⟨candidate_loop_bounds.1 wNet [wRepo] 1 (by decide),
   candidate_loop_bounds.2 wNet [wRepo] 2 (by decide)⟩

/-! ### Claim C6 -/

/-- C6: under the direct fan-out, the loop's result is exactly the index-wise
filterMap of the per-candidate rule; a candidate contributes a plugin only if
its manifest fetch and its release fetch succeed with at least one release,
and every kept plugin's `downloads` is the asset-count sum of the first
release of that candidate's listing, its logo being the conventional-path URL
when the probe succeeds and the placeholder avatar otherwise; candidates with
a failed manifest, failed release fetch, or empty release list contribute
nothing. -/
theorem direct_fanout_per_candidate (net : DirectNet) (items : List RepoItem)
    (count : Nat) (h : count ≤ items.length) :
    buildGo net items 0 count =
      .ok ((List.range' 0 count).filterMap (candidateResult net items)) ∧
    (∀ p ∈ (List.range' 0 count).filterMap (candidateResult net items),
      ∃ i, i < count ∧ ∃ repo pkg latest rest, items[i]? = some repo ∧
        net.pkg i = some pkg ∧ net.releases i = some (latest :: rest) ∧
        p.id = repo.id ∧
        p.downloads = (latest.assets.map (·.download_count)).sum ∧
        p.logo = some (if net.logoOk i then conventionalLogoUrl repo
          else placeholderLogo)) ∧
    (∀ i, i < count →
      (net.pkg i = none ∨ net.releases i = none ∨ net.releases i = some []) →
      candidateResult net items i = none) := by
  refine ⟨buildGo_ok net items count 0 (by omega), ?_,
    fun i _ hf => candidateResult_skip net items i hf⟩
  intro p hp
  rcases List.mem_filterMap.mp hp with ⟨i, hi, hc⟩
  have hi' : i < count := by
    have := List.mem_range'_1.mp hi
    omega
  refine ⟨i, hi', ?_⟩
  unfold candidateResult at hc
  rcases hrepo : items[i]? with - | repo
  · rw [hrepo] at hc
    simp at hc
  · rw [hrepo] at hc
    rcases hpkg : net.pkg i with - | pkg
    · rw [hpkg] at hc
      simp at hc
    · rw [hpkg] at hc
      rcases hrel : net.releases i with - | rels
      · rw [hrel] at hc
        simp at hc
      · rw [hrel] at hc
        match rels with
        | [] => simp at hc
        | latest :: rest =>
          have hp' := (Option.some.inj hc).symm
          exact ⟨repo, pkg, latest, rest, rfl, rfl, rfl, by rw [hp']; rfl,
            by rw [hp']; rfl, by rw [hp']; rfl⟩

/-- Witness for C6 at a one-candidate oracle with everything succeeding. -/
theorem direct_fanout_per_candidate_witness :
    buildGo wNet [wRepo] 0 1 =
      .ok ((List.range' 0 1).filterMap (candidateResult wNet [wRepo])) ∧
    (List.range' 0 1).filterMap (candidateResult wNet [wRepo]) =
      [mkDirectPlugin wRepo wPkg wRel (conventionalLogoUrl wRepo)] :=
  ⟨(direct_fanout_per_candidate wNet [wRepo] 1 (by decide)).1, by decide⟩

instance {ε α : Type} [DecidableEq ε] [DecidableEq α] : DecidableEq (Except ε α) :=
  fun a b =>
    match a, b with
    | .ok x, .ok y =>
      if h : x = y then isTrue (by rw [h])
      else isFalse (by intro hh; exact h (Except.ok.inj hh))
    | .error e, .error f =>
      if h : e = f then isTrue (by rw [h])
      else isFalse (by intro hh; exact h (Except.error.inj hh))
    | .ok _, .error _ => isFalse (by intro hh; exact Except.noConfusion hh)
    | .error _, .ok _ => isFalse (by intro hh; exact Except.noConfusion hh)

/-! ### Claim C5 -/

/-- An oracle whose single candidate succeeds on manifest and releases but
whose logo HEAD probe fails. -/
def logoFailNet : DirectNet :=
  { search := some { total_count := 1, incomplete_results := false, items := [wRepo] }
    pkg := fun _ => some wPkg
    releases := fun _ => some [wRel]
    logoOk := fun _ => false }

/-- Counterexample to C5 as stated: when only the logo probe of a candidate
fails, the candidate is NOT omitted — it is kept with the placeholder avatar
as its logo.  The claim's "a per-item fetch (package manifest, release list,
or logo probe) fails ⟹ the affected item is omitted" is therefore false for
the logo probe. -/
theorem logo_probe_failure_keeps_item :
    buildGo logoFailNet [wRepo] 0 1 =
      .ok [mkDirectPlugin wRepo wPkg wRel placeholderLogo] ∧
    buildGo logoFailNet [wRepo] 0 1 ≠ .ok [] := by
  refine ⟨by decide, by decide⟩

/-- C5 (amended): a non-success status on the primary collection call yields
a null collection and never a partial list (both loader generations); under
the direct fan-out a failed per-item package-manifest or release-list fetch
(or an empty release list) is swallowed and only that candidate is omitted —
the loop still completes with the other items; a failed logo probe is also
swallowed but keeps the item, substituting the placeholder avatar. -/
theorem list_loader_error_policy :
    (∀ (st : CacheState) (now : Nat),
      ¬ ((now : Int) - st.lastFetch < CACHE_DURATION ∧ st.cache ≠ []) →
      (fetchPluginsBackend st now none).1 = none) ∧
    (∀ (st : CacheState) (now : Nat) (net : DirectNet),
      ¬ ((now : Int) - st.lastFetch < CACHE_DURATION ∧ st.cache ≠ []) →
      net.search = none →
      fetchPluginsDirect st now net = .ok (none, ⟨st.cache, now⟩)) ∧
    (∀ (net : DirectNet) (items : List RepoItem) (count : Nat),
      count ≤ items.length →
      buildGo net items 0 count =
        .ok ((List.range' 0 count).filterMap (candidateResult net items)) ∧
      (∀ i, i < count →
        (net.pkg i = none ∨ net.releases i = none ∨ net.releases i = some []) →
        candidateResult net items i = none)) ∧
    (∀ (net : DirectNet) (items : List RepoItem) (i : Nat)
        (repo : RepoItem) (pkg : PkgManifest) (latest : DirectRelease)
        (rest : List DirectRelease),
      items[i]? = some repo → net.pkg i = some pkg →
      net.releases i = some (latest :: rest) → net.logoOk i = false →
      candidateResult net items i =
        some (mkDirectPlugin repo pkg latest placeholderLogo)) := by
  refine ⟨?_, ?_, ?_, ?_⟩
  · intro st now h
    unfold fetchPluginsBackend
    rw [if_neg h]
  · intro st now net h hsearch
    unfold fetchPluginsDirect
    rw [if_neg h, hsearch]
  · intro net items count h
    exact ⟨buildGo_ok net items count 0 (by omega),
      fun i _ hf => candidateResult_skip net items i hf⟩
  · intro net items i repo pkg latest rest hrepo hpkg hrel hlogo
    unfold candidateResult
    rw [hrepo, hpkg, hrel, hlogo]
    simp

/-- Witness for C5 at concrete inputs: a non-success primary call with an
expired window yields a null collection, and a candidate with a failed logo
probe is kept with the placeholder logo. -/
theorem list_loader_error_policy_witness :
    (fetchPluginsBackend ⟨[], 0⟩ 0 none).1 = none ∧
    candidateResult logoFailNet [wRepo] 0 =
      some (mkDirectPlugin wRepo wPkg wRel placeholderLogo) :=
  ⟨list_loader_error_policy.1 ⟨[], 0⟩ 0 (by decide),
   list_loader_error_policy.2.2.2 logoFailNet [wRepo] 0 wRepo wPkg wRel []
    (by decide) (by decide) (by decide) (by decide)⟩

/-! ## Detail page — latest-release fetch with 404 fallback
(plugin-details.tsx, eager sidebar effect)

```js
const res = await fetch(`.../releases/latest`);
if (res.status === 404) {
  const res2 = await fetch(`.../releases?per_page=1`);
  if (!res2.ok) throw new Error(...);
  const arr = await res2.json();
  const r = arr.find(x => !x.draft) ?? null;
  latestReleaseCache.set(cacheKey, r ?? null); setLatestRelease(r ?? null);
  return;
}
if (!res.ok) throw new Error(...);
...
```

The fallback listing requests page 1 with `per_page=1`, so its body is the
first element (at most) of the repository's release listing; the oracle
carries the repository's full release listing and the page is `take 1`. -/

/-- A GitHub release as the detail page reads it (presentation-only fields
such as `html_url` and `assets` are omitted; `draft` drives the fallback). -/
structure GHRelease where
  tag_name : String
  name : Option String
  draft : Bool
  prerelease : Bool
  published_at : Option String
deriving DecidableEq

/-- The response of the dedicated `releases/latest` endpoint. -/
inductive LatestResp where
  | ok (r : GHRelease)
  | notFound
  | failed (status : Nat)
deriving DecidableEq

/-- Oracle for the latest-release effect: the dedicated endpoint's response,
whether the fallback listing call succeeds, and the repository's release
listing (in listing order) from which the `per_page=1` page is served. -/
structure LatestNet where
  latest : LatestResp
  listingOk : Bool
  releasesList : List GHRelease

/-- The latest-release effect as a function of the oracle: `.ok (some r)`
stores `r`, `.ok none` stores `null` (the UI then shows "No releases yet."),
`.error` stores the error message. -/
def fetchLatestRelease (net : LatestNet) : Except String (Option GHRelease) :=
  match net.latest with
  | .ok r => .ok (some r)
  | .failed _ => .error "Failed to load latest release"
  | .notFound =>
    if net.listingOk then
      .ok ((net.releasesList.take 1).find? fun x => !x.draft)
    else .error "Failed to load releases"

/-! ### Claim C7 -/

/-- A draft release followed by a non-draft release. -/
def draftRel : GHRelease :=
  { tag_name := "v0.2-draft", name := some "draft", draft := true,
    prerelease := false, published_at := none }

def publishedRel : GHRelease :=
  { tag_name := "v0.1", name := some "first", draft := false,
    prerelease := false, published_at := some "2024-01-01T00:00:00Z" }

def draftFirstNet : LatestNet :=
  { latest := .notFound, listingOk := true,
    releasesList := [draftRel, publishedRel] }

/-- Counterexample to C7 as stated: the fallback listing is requested with
`per_page=1`, not "covering all releases" — when the first listed release is
a draft but a later one is not, the code stores `null` (the "no releases
yet" state) even though the full listing contains a non-draft entry that the
claim says would be selected. -/
theorem latest_fallback_single_page :
    fetchLatestRelease draftFirstNet = .ok none ∧
    draftFirstNet.releasesList.find? (fun x => !x.draft) = some publishedRel := by
  refine ⟨by decide, by decide⟩

/-- C7 (amended): when the dedicated latest-release endpoint responds 404,
the loader falls back to a release-listing call fetching only the FIRST page
of size one and selects its first non-draft entry; if that one-element page
is empty or its entry is a draft, the stored latest release is null and the
UI shows the "no releases yet" state rather than an error; any other
non-success status of the fallback listing fails the operation with an
error. -/
theorem latest_fallback_policy (net : LatestNet) (h404 : net.latest = .notFound) :
    (net.listingOk = true →
      fetchLatestRelease net = .ok ((net.releasesList.take 1).find? fun x => !x.draft)) ∧
    (net.listingOk = true → ((net.releasesList.take 1).find? fun x => !x.draft) = none →
      fetchLatestRelease net = .ok none) ∧
    (net.listingOk = false →
      fetchLatestRelease net = .error "Failed to load releases") := by
  unfold fetchLatestRelease
  rw [h404]
  refine ⟨fun hok => by rw [if_pos hok], fun hok hnone => by rw [if_pos hok, hnone],
    fun hfail => by rw [hfail]; rfl⟩

/-- Witness for C7: a 404 with a successful listing whose only page holds a
non-draft release stores that release; with an empty listing it stores null. -/
theorem latest_fallback_policy_witness :
    fetchLatestRelease ⟨.notFound, true, [publishedRel]⟩ = .ok (some publishedRel) ∧
    fetchLatestRelease ⟨.notFound, true, []⟩ = .ok none ∧
    fetchLatestRelease ⟨.notFound, false, []⟩ = .error "Failed to load releases" :=
  ⟨by rw [(latest_fallback_policy ⟨.notFound, true, [publishedRel]⟩ rfl).1 rfl]; decide,
   (latest_fallback_policy ⟨.notFound, true, []⟩ rfl).2.1 rfl (by decide),
   (latest_fallback_policy ⟨.notFound, false, []⟩ rfl).2.2 rfl⟩

/-! ## Detail page — README, gallery and contributors fetches

Each handler is embedded as a function from the response to the pair
(stored value, stored error): the effect ends with the value state and the
error state it wrote (`none` value = still "not yet loaded", `none` error =
no error shown).  The README's three content negotiations all end in a
markdown string; the oracle carries that string directly (the base64
decoding and the redirect fetch are data plumbing the claims do not touch). -/

/-- The response of the README endpoint. -/
inductive ReadmeResp where
  | notFound
  | jsonBase64 (md : String)
  | jsonRedirect (raw : String)
  | jsonMalformed
  | rawText (md : String)
  | failed (status : Nat)
deriving DecidableEq

/-- The README handler: 404 is normalized to the empty string (confirmed
absent); the three content shapes store their markdown; a malformed JSON body
and any other non-success status store an error and leave the value null. -/
def runReadmeFetch (r : ReadmeResp) : Option String × Option String :=
  match r with
  | .notFound => (some "", none)
  | .jsonBase64 md => (some md, none)
  | .jsonRedirect raw => (some raw, none)
  | .jsonMalformed => (none, some "Unexpected README response format.")
  | .rawText md => (some md, none)
  | .failed _ => (none, some "Failed to load README")

/-- One entry of the gallery directory listing (`GitHubContent`). -/
structure GalleryEntry where
  name : String
  ctype : String
  download_url : Option String
deriving DecidableEq

/-- The media-extension filter `/\.(jpe?g|png|gif|webp|svg|mp4|webm)$/i`. -/
def isMediaName (filename : String) : Bool :=
  [".jpg", ".jpeg", ".png", ".gif", ".webp", ".svg", ".mp4", ".webm"].any
    fun ext => decide (ext.data <:+ filename.data.map Char.toLower)

/-- The response of the gallery directory listing. -/
inductive GalleryResp where
  | notFound
  | ok (entries : List GalleryEntry)
  | failed (status : Nat)
deriving DecidableEq

/-- The gallery handler: 404 is normalized to the empty list; a success
stores the file entries with media extensions; other non-success statuses
store an error. -/
def runGalleryFetch (r : GalleryResp) : Option (List GalleryEntry) × Option String :=
  match r with
  | .notFound => (some [], none)
  | .ok entries =>
    (some (entries.filter fun e => e.ctype == "file" && isMediaName e.name), none)
  | .failed _ => (none, some "Failed to load gallery content")

/-- A GitHub contributor as the sidebar reads it. -/
structure GHContributor where
  login : String
  avatar_url : String
  html_url : String
  contributions : Nat
deriving DecidableEq

/-- The response of the contributors endpoint: GitHub answers 204 No Content
for repositories with no computable contributor list. -/
inductive ContribResp where
  | noContent
  | ok (cs : List GHContributor)
  | failed (status : Nat)
deriving DecidableEq

/-- The contributors handler: 204 is normalized to the empty list, a success
stores the list, other non-success statuses store an error. -/
def runContributorsFetch (r : ContribResp) :
    Option (List GHContributor) × Option String :=
  match r with
  | .noContent => (some [], none)
  | .ok cs => (some cs, none)
  | .failed _ => (none, some "Failed to load contributors")

/-! ### Claim C8 -/

/-- C8: 404 (and, for contributors, 204) responses are normalized rather
than treated as errors: a README 404 stores the empty string (confirmed
absent, not null), a gallery 404 stores an empty sequence, a contributors
204 stores an empty sequence — and in each case the stored error state
remains null. -/
theorem notfound_normalization :
    runReadmeFetch .notFound = (some "", none) ∧
    runGalleryFetch .notFound = (some [], none) ∧
    runContributorsFetch .noContent = (some [], none) :=
  ⟨rfl, rfl, rfl⟩

/-! ## Detail page — lazy per-tab fetches

Each lazily fetched resource is guarded by

```js
useEffect(() => {
  if (tab !== "readme") return;
  if (readme !== null) return; // cached (could be "")
  ...fetch and store...
}, [...]);
```

embedded as a step function on the (value, error) state that returns the new
state and whether a network call was issued.  A failed attempt stores the
error and leaves the value null, so only the null-ness of the value gates a
retry. -/

inductive Tab where
  | readme
  | versions
  | changelog
  | gallery
deriving DecidableEq

/-- The README lazy effect: fires only when the README tab is active and the
cached value is null; when it fires, the handler's result is stored. -/
def readmeLazyStep (tab : Tab) (st : Option String × Option String)
    (resp : ReadmeResp) : (Option String × Option String) × Bool :=
  if tab = .readme ∧ st.1 = none then (runReadmeFetch resp, true)
  else (st, false)

/-- The gallery lazy effect (src/pages/plugin-details.tsx 384–426): fires
only when the gallery tab is active and the cached value is null. -/
def galleryLazyStep (tab : Tab) (st : Option (List GalleryEntry) × Option String)
    (resp : GalleryResp) : (Option (List GalleryEntry) × Option String) × Bool :=
  if tab = .gallery ∧ st.1 = none then (runGalleryFetch resp, true)
  else (st, false)

/-- A README response leaves the stored value null exactly when the attempt
failed (non-404 error status or malformed body). -/
def readmeRespFails : ReadmeResp → Bool
  | .jsonMalformed => true
  | .failed _ => true
  | _ => false

def galleryRespFails : GalleryResp → Bool
  | .failed _ => true
  | _ => false

lemma runReadmeFetch_fst_none (resp : ReadmeResp) :
    (runReadmeFetch resp).1 = none ↔ readmeRespFails resp = true := by
  cases resp <;> simp [runReadmeFetch, readmeRespFails]

lemma runGalleryFetch_fst_none (resp : GalleryResp) :
    (runGalleryFetch resp).1 = none ↔ galleryRespFails resp = true := by
  cases resp <;> simp [runGalleryFetch, galleryRespFails]

/-! ### Claim C9 -/

/-- C9: the lazy per-resource fetches are idempotent per identity — whenever
the cached value is non-null (including the `""` README sentinel and the `[]`
gallery sentinel) re-activating the tab issues no network call and changes
nothing; after a failed attempt the value is still null, so re-activating
the tab fetches again; after a success or a confirmed-absent 404 the value is
non-null, so re-activating the tab does not fetch. -/
theorem lazy_fetch_idempotent :
    (∀ (tab : Tab) (st : Option String × Option String) (resp : ReadmeResp),
      st.1 ≠ none → readmeLazyStep tab st resp = (st, false)) ∧
    (∀ (st : Option String × Option String) (resp resp' : ReadmeResp),
      st.1 = none → readmeRespFails resp = true →
      ((readmeLazyStep .readme ((readmeLazyStep .readme st resp).1) resp').2 = true)) ∧
    (∀ (st : Option String × Option String) (resp resp' : ReadmeResp),
      st.1 = none → readmeRespFails resp = false →
      ((readmeLazyStep .readme ((readmeLazyStep .readme st resp).1) resp').2 = false)) ∧
    (∀ (tab : Tab) (st : Option (List GalleryEntry) × Option String)
        (resp : GalleryResp),
      st.1 ≠ none → galleryLazyStep tab st resp = (st, false)) ∧
    (∀ (st : Option (List GalleryEntry) × Option String) (resp resp' : GalleryResp),
      st.1 = none → galleryRespFails resp = true →
      ((galleryLazyStep .gallery ((galleryLazyStep .gallery st resp).1) resp').2 = true)) ∧
    (∀ (st : Option (List GalleryEntry) × Option String) (resp resp' : GalleryResp),
      st.1 = none → galleryRespFails resp = false →
      ((galleryLazyStep .gallery ((galleryLazyStep .gallery st resp).1) resp').2 = false)) := by
  refine ⟨?_, ?_, ?_, ?_, ?_, ?_⟩
  · intro tab st resp h
    unfold readmeLazyStep
    rw [if_neg (by simp [h])]
  · intro st resp resp' h hfail
    have h1 : readmeLazyStep .readme st resp = (runReadmeFetch resp, true) := by
      unfold readmeLazyStep
      rw [if_pos ⟨rfl, h⟩]
    rw [h1]
    unfold readmeLazyStep
    rw [if_pos ⟨rfl, (runReadmeFetch_fst_none resp).mpr hfail⟩]
  · intro st resp resp' h hok
    have h1 : readmeLazyStep .readme st resp = (runReadmeFetch resp, true) := by
      unfold readmeLazyStep
      rw [if_pos ⟨rfl, h⟩]
    rw [h1]
    unfold readmeLazyStep
    rw [if_neg]
    intro hcon
    have := (runReadmeFetch_fst_none resp).mp hcon.2
    rw [this] at hok
    simp at hok
  · intro tab st resp h
    unfold galleryLazyStep
    rw [if_neg (by simp [h])]
  · intro st resp resp' h hfail
    have h1 : galleryLazyStep .gallery st resp = (runGalleryFetch resp, true) := by
      unfold galleryLazyStep
      rw [if_pos ⟨rfl, h⟩]
    rw [h1]
    unfold galleryLazyStep
    rw [if_pos ⟨rfl, (runGalleryFetch_fst_none resp).mpr hfail⟩]
  · intro st resp resp' h hok
    have h1 : galleryLazyStep .gallery st resp = (runGalleryFetch resp, true) := by
      unfold galleryLazyStep
      rw [if_pos ⟨rfl, h⟩]
    rw [h1]
    unfold galleryLazyStep
    rw [if_neg]
    intro hcon
    have := (runGalleryFetch_fst_none resp).mp hcon.2
    rw [this] at hok
    simp at hok

/-- Witness for C9 at concrete states: a cached empty-string README blocks a
second call; a failed attempt from the null state retries on the next tab
activation; a 404-normalized attempt does not. -/
theorem lazy_fetch_idempotent_witness :
    readmeLazyStep .readme (some "", none) (.failed 500) = ((some "", none), false) ∧
    (readmeLazyStep .readme
      ((readmeLazyStep .readme (none, none) (.failed 500)).1) .notFound).2 = true ∧
    (readmeLazyStep .readme
      ((readmeLazyStep .readme (none, none) .notFound).1) (.failed 500)).2 = false :=
  ⟨lazy_fetch_idempotent.1 .readme (some "", none) (.failed 500) (by simp),
   lazy_fetch_idempotent.2.1 (none, none) (.failed 500) .notFound rfl rfl,
   lazy_fetch_idempotent.2.2.1 (none, none) .notFound (.failed 500) rfl rfl⟩
